import Mathlib

/-!
# viacep: response classification and the fetch/cancel race

A shallow embedding of `viacep.go` (package `viacep`): the record `CEP`, the
package errors, `parseResponse` and `Consultar`.

* `parseResponse` is a pure function of the response.  The JSON decoder it
  calls (`encoding/json`, outside the package) is a parameter `dec`; the
  documented behaviour of that decoder on the `CEP` struct is given once, as
  `jsonDecode`, for the statements that depend on what the decoder accepts.
* `Consultar` starts a goroutine and waits in a `select`.  It is embedded as a
  transition system: the state holds the two buffered channels, the
  goroutine's position, the context's state and the caller's position; an
  event is one atomic step of the goroutine, of the context, or of the
  caller's `select`.  A schedule is a list of events.
-/

set_option linter.dupNamespace false

namespace Viacep

/-! ## Data model (viacep.go, lines 12-37) -/

/-- Go `type Error string`: the errors declared by the package. -/
structure Error where
  msg : String
  deriving DecidableEq, Repr

/-- Go `func (e Error) Error() string`. -/
def Error.Error (e : Error) : String := e.msg

/-- Go `ErrCEPInvalid = Error("the given CEP is invalid")`. -/
def ErrCEPInvalid : Error := ⟨"the given CEP is invalid"⟩

/-- Go `ErrCEPNotFound = Error("the given CEP was not found")`. -/
def ErrCEPNotFound : Error := ⟨"the given CEP was not found"⟩

/-- The kinds of JSON value, as `json.UnmarshalTypeError.Value` names them. -/
inductive JKind
  | null | bool | number | string | array | object
  deriving DecidableEq, Repr

/-- The errors of the standard context package: `context.Canceled` and
`context.DeadlineExceeded`. -/
inductive CtxErr
  | Canceled | DeadlineExceeded
  deriving DecidableEq, Repr

/-- A Go `error` value as this package meets it.  `pkg` is the package's own
`Error`; the others are produced outside the package and only passed on:
`unmarshalType` is `*json.UnmarshalTypeError` (a JSON value of kind `value`
does not fit the Go value it is decoded into), `scan` is a failure of the
decoder to read one JSON value from the stream (`io.EOF`, a
`*json.SyntaxError`, `io.ErrUnexpectedEOF`, a read error), `transport` is the
error of `http.Client.Get`, `ctx` is the error of a done context. -/
inductive GoError
  | pkg (e : Error)
  | unmarshalType (value : JKind)
  | scan (cause : String)
  | transport (cause : String)
  | ctx (e : CtxErr)
  deriving DecidableEq, Repr

/-- Go `type CEP struct`. -/
structure CEP where
  CEP : String
  Logradouro : String
  Complemento : String
  Bairro : String
  Localidade : String
  UF : String
  IBGE : String
  GIA : String
  DDD : String
  SIAFI : String
  Erro : Bool
  deriving DecidableEq, Repr

/-- Go `CEP{}`, also the value of `var cep CEP`: all strings empty, `Erro` false. -/
def CEP.zero : Viacep.CEP := ⟨"", "", "", "", "", "", "", "", "", "", false⟩

/-! ## JSON values and the response -/

/-- A JSON value. A number keeps its literal; an object keeps its members in
order, duplicates included. -/
inductive JSON
  | null
  | bool (b : Bool)
  | number (lit : String)
  | string (s : String)
  | array (items : List JSON)
  | object (members : List (String × JSON))

/-- The kind of a JSON value. -/
def JSON.kind : JSON → JKind
  | .null => .null
  | .bool _ => .bool
  | .number _ => .number
  | .string _ => .string
  | .array _ => .array
  | .object _ => .object

/-- What the body stream holds for a decoder that reads one JSON value from
it: either no well-formed value can be read (empty or truncated stream,
malformed text, read error), with the error the decoder reports, or one
well-formed JSON value. -/
inductive Body
  | unreadable (e : GoError)
  | value (root : JSON)

/-- The part of `*http.Response` the package reads. -/
structure Response where
  StatusCode : Int
  Body : Body

/-- Go `http.StatusBadRequest`. -/
def StatusBadRequest : Int := 400

/-- The outcome of `json.NewDecoder(body).Decode(&cep)` on `var cep CEP`: the
record as the decoder leaves it, and the error it returns (`none` is nil). -/
abbrev Decoder := Body → CEP × Option GoError

/-! ## encoding/json on the `CEP` struct -/

/-- The fields of `CEP`, by their `json` tags. -/
inductive Field
  | cep | logradouro | complemento | bairro | localidade | uf | ibge | gia | ddd | siafi | erro
  deriving DecidableEq, Repr

/-- The `json` tag of a field. -/
def Field.tag : Field → String
  | .cep => "cep"
  | .logradouro => "logradouro"
  | .complemento => "complemento"
  | .bairro => "bairro"
  | .localidade => "localidade"
  | .uf => "uf"
  | .ibge => "ibge"
  | .gia => "gia"
  | .ddd => "ddd"
  | .siafi => "siafi"
  | .erro => "erro"

/-- All fields, in declaration order. -/
def Field.all : List Field :=
  [.cep, .logradouro, .complemento, .bairro, .localidade, .uf, .ibge, .gia, .ddd, .siafi, .erro]

/-- Case folding of one character towards the lower-case ASCII letter of its
fold class: `A`-`Z` to `a`-`z`, the long s (U+017F) to `s`, the Kelvin sign
(U+212A) to `k`; every other character is left alone. -/
def foldChar (c : Char) : Char :=
  if c = Char.ofNat 0x17F then 's'
  else if c = Char.ofNat 0x212A then 'k'
  else c.toLower

/-- An object key selects the field whose tag it equals up to case folding
(encoding/json prefers an exact match and accepts a case-insensitive one; the
tags are lower-case ASCII and pairwise different under folding). -/
def fieldOf (key : String) : Option Field :=
  Field.all.find? (fun f => decide (key.data.map foldChar = f.tag.data))

/-- Store a string into a string field of the record. -/
def CEP.setString (c : Viacep.CEP) (f : Field) (s : String) : Viacep.CEP :=
  match f with
  | .cep => { c with CEP := s }
  | .logradouro => { c with Logradouro := s }
  | .complemento => { c with Complemento := s }
  | .bairro => { c with Bairro := s }
  | .localidade => { c with Localidade := s }
  | .uf => { c with UF := s }
  | .ibge => { c with IBGE := s }
  | .gia => { c with GIA := s }
  | .ddd => { c with DDD := s }
  | .siafi => { c with SIAFI := s }
  | .erro => c

/-- The decoder's working state: the record being filled and the first type
error saved so far (`d.savedError`). -/
abbrev DecodeState := CEP × Option GoError

/-- Go `d.saveError`: only the first error is kept. -/
def saveError (st : DecodeState) (e : GoError) : DecodeState :=
  match st.2 with
  | none => (st.1, some e)
  | some _ => st

/-- Decode one member value into a field. A JSON null leaves the field as it
is; a value of the field's type is stored; any other value saves an
`UnmarshalTypeError` and decoding goes on. -/
def storeField (st : DecodeState) (f : Field) (v : JSON) : DecodeState :=
  match f, v with
  | _, .null => st
  | .erro, .bool b => ({ st.1 with Erro := b }, st.2)
  | .erro, v => saveError st (.unmarshalType v.kind)
  | f, .string s => (st.1.setString f s, st.2)
  | _, v => saveError st (.unmarshalType v.kind)

/-- Decode one object member: a key that selects no field is skipped. -/
def storeMember (st : DecodeState) (m : String × JSON) : DecodeState :=
  match fieldOf m.1 with
  | none => st
  | some f => storeField st f m.2

/-- Go `json.Unmarshal` of one JSON value into a `CEP` that starts as `c`:
an object is decoded member by member, a null has no effect and is no error,
any other value is an `UnmarshalTypeError` and leaves the record alone. -/
def unmarshal (c : CEP) (root : JSON) : DecodeState :=
  match root with
  | .object members => members.foldl storeMember (c, none)
  | .null => (c, none)
  | v => (c, some (.unmarshalType v.kind))

/-- The decoder of encoding/json applied to the body, into `var cep CEP`. -/
def jsonDecode : Decoder
  | .unreadable e => (CEP.zero, some e)
  | .value root => unmarshal CEP.zero root

/-! ## parseResponse (viacep.go, lines 57-72) -/

/-- What `parseResponse` does to the body stream. -/
inductive BodyOp
  | decode | close
  deriving DecidableEq, Repr

/-- Go `(d defaultClient) parseResponse`. The first component is the returned
pair `(CEP, error)`; the second lists the operations performed on
`resp.Body`, the deferred `Close` last. -/
def parseResponse (dec : Decoder) (resp : Response) : (CEP × Option GoError) × List BodyOp :=
  if resp.StatusCode = StatusBadRequest then
    ((CEP.zero, some (.pkg ErrCEPInvalid)), [.close])
  else
    let (cep, err) := dec resp.Body
    match err with
    | some e => ((CEP.zero, some e), [.decode, .close])
    | none =>
      if cep.Erro then ((CEP.zero, some (.pkg ErrCEPNotFound)), [.decode, .close])
      else ((cep, none), [.decode, .close])

/-! ## Consultar (viacep.go, lines 74-100) -/

/-- Go `*http.Client`, the injected transport, as the package uses it: `Get`
of a URL returns a response or an error. -/
structure HttpClient where
  Get : String → Except GoError Response

/-- Go `type defaultClient struct`. -/
structure defaultClient where
  baseURL : String
  httpClient : HttpClient

/-- Go `NewClient`. -/
def NewClient (baseURL : String) (httpClient : HttpClient) : defaultClient :=
  { baseURL := baseURL, httpClient := httpClient }

/-- Go `fmt.Sprintf("%s/%s/json", d.baseURL, cep)`. -/
def serviceURL (d : defaultClient) (cep : String) : String :=
  d.baseURL ++ "/" ++ cep ++ "/json"

/-- A buffered Go channel: its capacity and the values waiting in it, oldest
first. (Only channels of capacity at least one occur.) -/
structure Chan (α : Type) where
  cap : Nat
  buf : List α

/-- Go `make(chan T, cap)`. -/
def Chan.make (α : Type) (cap : Nat) : Chan α := { cap := cap, buf := [] }

/-- A send `ch <- x`: it goes through when the buffer has room; `none` means
the sender blocks. -/
def Chan.send {α : Type} (ch : Chan α) (x : α) : Option (Chan α) :=
  if ch.buf.length < ch.cap then some { ch with buf := ch.buf ++ [x] } else none

/-- A receive `<-ch`: the oldest waiting value; `none` means the channel is
not ready. -/
def Chan.recv {α : Type} (ch : Chan α) : Option (α × Chan α) :=
  match ch.buf with
  | [] => none
  | x :: rest => some (x, { ch with buf := rest })

/-- The caller's context. `never` is a context that is never done
(`context.TODO()`, `context.Background()`); `cancelable` is one whose `Done`
channel can be closed, by a cancel or by a deadline. -/
inductive Context
  | never | cancelable
  deriving DecidableEq, Repr

/-- The two channels of a call. -/
inductive ChanId
  | errChan | resultChan
  deriving DecidableEq, Repr

/-- Where the goroutine stands: in `d.httpClient.Get` (line 80), at a send
`errChan <- err` (line 82 or 87), at the send `resultChan <- result`
(line 90), or returned. -/
inductive Worker
  | atGet
  | atSendErr (err : GoError)
  | atSendResult (result : CEP)
  | done
  deriving DecidableEq

/-- The goroutine's body from the `Get` up to its send (lines 78-90): the
send it arrives at. -/
def workUnit (dec : Decoder) (d : defaultClient) (cep : String) : Worker :=
  match d.httpClient.Get (serviceURL d cep) with
  | .error err => .atSendErr err
  | .ok resp =>
    match (parseResponse dec resp).1 with
    | (_, some err) => .atSendErr err
    | (result, none) => .atSendResult result

/-- The state of one call of `Consultar`. `ctxErr` is `ctx.Err()`: nil until
the context is done. `ret` is what the caller has returned, `none` while it
waits in the `select`. -/
structure State where
  errChan : Chan GoError
  resultChan : Chan CEP
  worker : Worker
  ctxErr : Option CtxErr
  ret : Option (CEP × Option GoError)

/-- The state when the caller reaches the `select`: both channels made with
capacity 1 (lines 75-76), the goroutine started (line 77). -/
def State.init : State :=
  { errChan := Chan.make GoError 1, resultChan := Chan.make CEP 1, worker := .atGet,
    ctxErr := none, ret := none }

/-- The cases of the `select` (lines 92-99). -/
inductive SelectCase
  | errChan | ctxDone | resultChan
  deriving DecidableEq, Repr

/-- One atomic step of a call: the goroutine's next step, the context
becoming done with an error, or the caller's `select` taking a case. -/
inductive Event
  | work
  | cancel (e : CtxErr)
  | select (c : SelectCase)
  deriving DecidableEq, Repr

/-- The step of the goroutine: `none` when it has returned or its send blocks. -/
def stepWork (dec : Decoder) (d : defaultClient) (cep : String) (s : State) : Option State :=
  match s.worker with
  | .atGet => some { s with worker := workUnit dec d cep }
  | .atSendErr err =>
    match s.errChan.send err with
    | some ch => some { s with errChan := ch, worker := .done }
    | none => none
  | .atSendResult result =>
    match s.resultChan.send result with
    | some ch => some { s with resultChan := ch, worker := .done }
    | none => none
  | .done => none

/-- The step of the caller's `select`: `none` when the caller has returned
already or the case is not ready. -/
def stepSelect (s : State) (c : SelectCase) : Option State :=
  match s.ret with
  | some _ => none
  | none =>
    match c with
    | .errChan =>
      match s.errChan.recv with
      | some (err, ch) => some { s with errChan := ch, ret := some (CEP.zero, some err) }
      | none => none
    | .ctxDone =>
      match s.ctxErr with
      | some e => some { s with ret := some (CEP.zero, some (.ctx e)) }
      | none => none
    | .resultChan =>
      match s.resultChan.recv with
      | some (result, ch) => some { s with resultChan := ch, ret := some (result, none) }
      | none => none

/-- One step of a call; `none` when the event is not enabled in `s`. -/
def step (dec : Decoder) (d : defaultClient) (ctx : Context) (cep : String) (s : State) :
    Event → Option State
  | .work => stepWork dec d cep s
  | .cancel e =>
    if ctx = .cancelable ∧ s.ctxErr = none then some { s with ctxErr := some e } else none
  | .select c => stepSelect s c

/-- Run a schedule from `s`; an event that is not enabled does not happen. -/
def exec (dec : Decoder) (d : defaultClient) (ctx : Context) (cep : String) (s : State) :
    List Event → State
  | [] => s
  | ev :: evs =>
    match step dec d ctx cep s ev with
    | some s' => exec dec d ctx cep s' evs
    | none => exec dec d ctx cep s evs

/-- Go `(d defaultClient) Consultar` under a schedule: what the caller has
returned when the schedule is over, `none` if it still waits in the `select`. -/
def Consultar (dec : Decoder) (d : defaultClient) (ctx : Context) (cep : String)
    (sched : List Event) : Option (CEP × Option GoError) :=
  (exec dec d ctx cep State.init sched).ret

/-- The sends observed in one step from `s` to `t`: a channel whose buffer
has grown has taken a send. -/
def sentOn (s t : State) : List ChanId :=
  (if s.errChan.buf.length < t.errChan.buf.length then [ChanId.errChan] else []) ++
  (if s.resultChan.buf.length < t.resultChan.buf.length then [ChanId.resultChan] else [])

/-- The sends performed along a schedule run from `s`, in order, as observed
on the channels' buffers. -/
def sendTrace (dec : Decoder) (d : defaultClient) (ctx : Context) (cep : String) (s : State) :
    List Event → List ChanId
  | [] => []
  | ev :: evs =>
    match step dec d ctx cep s ev with
    | some t => sentOn s t ++ sendTrace dec d ctx cep t evs
    | none => sendTrace dec d ctx cep s evs

/-! ## Sample inputs, after the package's tests -/

/-- The body of the test "should return a valid CEP". -/
def validResult : Body :=
  .value (.object [
    ("cep", .string "01001-000"), ("logradouro", .string "Praça da Sé"),
    ("complemento", .string "lado ímpar"), ("bairro", .string "Sé"),
    ("localidade", .string "São Paulo"), ("uf", .string "SP"),
    ("ibge", .string "3550308"), ("gia", .string "1004"),
    ("ddd", .string "11"), ("siafi", .string "7107"), ("erro", .bool false)])

/-- The record the test "should return a valid CEP" expects. -/
def validCEP : CEP :=
  { CEP := "01001-000", Logradouro := "Praça da Sé", Complemento := "lado ímpar",
    Bairro := "Sé", Localidade := "São Paulo", UF := "SP", IBGE := "3550308",
    GIA := "1004", DDD := "11", SIAFI := "7107", Erro := false }

/-- The body of the test "should return an error due to a not found CEP",
with one more member. -/
def notFoundResult : Body :=
  .value (.object [("cep", .string "99999-999"), ("erro", .bool true)])

/-- The body of the test "should return an error due to an unknown response
body": the text `[]`. -/
def unknownResult : Body := .value (.array [])

/-- An object that fills one field and then fails on the next: the marker is
a number. -/
def halfDecoded : Body :=
  .value (.object [("cep", .string "01001-000"), ("erro", .number "5")])

/-- The body of the test "should return an error due to the invalid CEP": it
is empty, a decoder would report `io.EOF`. -/
def emptyBody : Body := .unreadable (.scan "EOF")

/-- A client whose transport answers every request with `r`. -/
def stubClient (r : Except GoError Response) : defaultClient :=
  NewClient "http://viacep.com.br/ws/" { Get := fun _ => r }

/-! ## Consultar: the reachable states -/

/-- The caller still waits in the `select`, or it has returned on the
context's case with the context's error. -/
def CallerOpen (s : State) : Prop :=
  s.ret = none ∨ ∃ e, s.ctxErr = some e ∧ s.ret = some (CEP.zero, some (.ctx e))

/-- The invariant of a call. Both channels have capacity 1 and a context that
is never done has no error. Then either the goroutine has sent nothing yet
(it is in `Get` or at its send, both channels are empty), or it has returned
after its one send on `errChan`, or after its one send on `resultChan`; the
value sent is still in the channel, or the caller has received and returned it. -/
def Inv (dec : Decoder) (d : defaultClient) (ctx : Context) (cep : String) (s : State) : Prop :=
  s.errChan.cap = 1 ∧ s.resultChan.cap = 1 ∧ (ctx = .never → s.ctxErr = none) ∧
  ((s.errChan.buf = [] ∧ s.resultChan.buf = [] ∧ CallerOpen s ∧
      (s.worker = .atGet ∨ s.worker = workUnit dec d cep))
   ∨ (∃ err, workUnit dec d cep = .atSendErr err ∧ s.worker = .done ∧
        s.resultChan.buf = [] ∧
        ((s.errChan.buf = [err] ∧ CallerOpen s)
          ∨ (s.errChan.buf = [] ∧ s.ret = some (CEP.zero, some err))))
   ∨ (∃ r, workUnit dec d cep = .atSendResult r ∧ s.worker = .done ∧
        s.errChan.buf = [] ∧
        ((s.resultChan.buf = [r] ∧ CallerOpen s)
          ∨ (s.resultChan.buf = [] ∧ s.ret = some (r, none)))))

/-- The result of the goroutine's work, as a pair `(CEP, error)`: the error
of `Get` with the zero record, or what `parseResponse` returns. -/
def workOutcome (dec : Decoder) (d : defaultClient) (cep : String) : CEP × Option GoError :=
  match d.httpClient.Get (serviceURL d cep) with
  | .error err => (CEP.zero, some err)
  | .ok resp => (parseResponse dec resp).1

/-- The sends a call has performed when it is in state `s`: none while the
goroutine has not returned, and exactly one once it has, on `errChan` when
its work arrived at `errChan <- err`, on `resultChan` when it arrived at
`resultChan <- result`. -/
def SentSoFar (dec : Decoder) (d : defaultClient) (cep : String) (s : State)
    (tr : List ChanId) : Prop :=
  (s.worker ≠ .done → tr = []) ∧
  (s.worker = .done →
    (∃ err, workUnit dec d cep = .atSendErr err ∧ tr = [.errChan])
    ∨ (∃ r, workUnit dec d cep = .atSendResult r ∧ tr = [.resultChan]))

/-! ## parseResponse: the four outcomes -/

/-- C1: a response with status 400 gives `ErrCEPInvalid` and the zero record,
whatever the body and whatever the decoder would do with it; the only
operation on the body is the deferred `Close`, so the body is not decoded. -/
theorem parseResponse_badRequest (dec : Decoder) (resp : Response)
    (hs : resp.StatusCode = StatusBadRequest) :
    parseResponse dec resp = ((CEP.zero, some (.pkg ErrCEPInvalid)), [BodyOp.close]) := by
  simp [parseResponse, hs]

theorem parseResponse_badRequest_witness :
    (Response.mk 400 emptyBody).StatusCode = StatusBadRequest ∧
    parseResponse jsonDecode (Response.mk 400 emptyBody)
      = ((CEP.zero, some (.pkg ErrCEPInvalid)), [BodyOp.close]) :=
  ⟨by decide, parseResponse_badRequest jsonDecode (Response.mk 400 emptyBody) (by decide)⟩

/-- C2: status not 400, the body decodes without error into a record whose
`Erro` is true: the result is `ErrCEPNotFound` with the zero record, whatever
the other decoded fields are. -/
theorem parseResponse_notFound (dec : Decoder) (resp : Response) (c : CEP)
    (hs : resp.StatusCode ≠ StatusBadRequest) (hd : dec resp.Body = (c, none))
    (he : c.Erro = true) :
    (parseResponse dec resp).1 = (CEP.zero, some (.pkg ErrCEPNotFound)) := by
  simp [parseResponse, hs, hd, he]

theorem parseResponse_notFound_witness :
    (Response.mk 200 notFoundResult).StatusCode ≠ StatusBadRequest ∧
    jsonDecode (Response.mk 200 notFoundResult).Body
      = ({ CEP.zero with CEP := "99999-999", Erro := true }, none) ∧
    (parseResponse jsonDecode (Response.mk 200 notFoundResult)).1
      = (CEP.zero, some (.pkg ErrCEPNotFound)) :=
  ⟨by decide, by decide,
   parseResponse_notFound jsonDecode (Response.mk 200 notFoundResult)
     { CEP.zero with CEP := "99999-999", Erro := true } (by decide) (by decide) rfl⟩

/-- C3: status not 400, the body decodes without error into a record `c`
whose `Erro` is false: the result is `c` itself, every field unchanged, with
a nil error. -/
theorem parseResponse_found (dec : Decoder) (resp : Response) (c : CEP)
    (hs : resp.StatusCode ≠ StatusBadRequest) (hd : dec resp.Body = (c, none))
    (he : c.Erro = false) :
    (parseResponse dec resp).1 = (c, none) := by
  simp [parseResponse, hs, hd, he]

theorem parseResponse_found_witness :
    (Response.mk 200 validResult).StatusCode ≠ StatusBadRequest ∧
    jsonDecode (Response.mk 200 validResult).Body = (validCEP, none) ∧
    (parseResponse jsonDecode (Response.mk 200 validResult)).1 = (validCEP, none) :=
  ⟨by decide, by decide,
   parseResponse_found jsonDecode (Response.mk 200 validResult) validCEP
     (by decide) (by decide) rfl⟩

/-- C4: status not 400 and the decoder returns an error `e`, leaving the
record as `c`: the result is the zero record with `e` itself; `c`, filled or
not, is not returned. -/
theorem parseResponse_decodeError (dec : Decoder) (resp : Response) (c : CEP) (e : GoError)
    (hs : resp.StatusCode ≠ StatusBadRequest) (hd : dec resp.Body = (c, some e)) :
    (parseResponse dec resp).1 = (CEP.zero, some e) := by
  simp [parseResponse, hs, hd]

theorem parseResponse_decodeError_witness :
    (Response.mk 200 halfDecoded).StatusCode ≠ StatusBadRequest ∧
    jsonDecode (Response.mk 200 halfDecoded).Body
      = ({ CEP.zero with CEP := "01001-000" }, some (.unmarshalType .number)) ∧
    (parseResponse jsonDecode (Response.mk 200 halfDecoded)).1
      = (CEP.zero, some (.unmarshalType .number)) :=
  ⟨by decide, by decide,
   parseResponse_decodeError jsonDecode (Response.mk 200 halfDecoded)
     { CEP.zero with CEP := "01001-000" } (.unmarshalType .number) (by decide) (by decide)⟩

/-- C8, as stated, fails: with status 200 and a body whose root is the JSON
value `null` (not an object), the decoder reports no error and
`parseResponse` returns the zero record with a nil error. -/
theorem parseResponse_nullRoot :
    (Response.mk 200 (.value .null)).StatusCode ≠ StatusBadRequest ∧
    JSON.null.kind ≠ JKind.object ∧
    (parseResponse jsonDecode (Response.mk 200 (.value .null))).1 = (CEP.zero, none) :=
  ⟨by decide, by decide, by decide⟩

/-- C8, amended: status not 400 and the root of the body is an array, a
string, a number or a boolean: the result is the zero record with the
decoder's type error for that kind of value, never a nil error. -/
theorem parseResponse_nonObjectRoot (resp : Response) (root : JSON)
    (hs : resp.StatusCode ≠ StatusBadRequest) (hb : resp.Body = .value root)
    (hk : root.kind = .array ∨ root.kind = .string ∨ root.kind = .number ∨ root.kind = .bool) :
    (parseResponse jsonDecode resp).1 = (CEP.zero, some (.unmarshalType root.kind)) := by
  have hd : jsonDecode resp.Body = (CEP.zero, some (.unmarshalType root.kind)) := by
    rw [hb]
    cases root <;> simp [JSON.kind] at hk <;> simp [jsonDecode, unmarshal, JSON.kind]
  simp [parseResponse, hs, hd]

theorem parseResponse_nonObjectRoot_witness :
    (Response.mk 200 unknownResult).StatusCode ≠ StatusBadRequest ∧
    (parseResponse jsonDecode (Response.mk 200 unknownResult)).1
      = (CEP.zero, some (.unmarshalType .array)) :=
  ⟨by decide,
   parseResponse_nonObjectRoot (Response.mk 200 unknownResult) (.array [])
     (by decide) rfl (Or.inl rfl)⟩

/-! ## Lemmas -/

lemma parseResponse_error_zero (dec : Decoder) (resp : Response) (c : CEP) (e : GoError)
    (h : (parseResponse dec resp).1 = (c, some e)) : c = CEP.zero := by
  unfold parseResponse at h
  split_ifs at h with h1
  · simp at h; exact h.1.symm
  · rcases hd : dec resp.Body with ⟨c', err⟩
    rw [hd] at h
    cases err with
    | some e' => simp at h; exact h.1.symm
    | none =>
      simp only at h
      split_ifs at h with h2
      · simp at h; exact h.1.symm
      · simp at h

lemma parseResponse_nil (dec : Decoder) (resp : Response) (c : CEP)
    (h : (parseResponse dec resp).1 = (c, none)) :
    resp.StatusCode ≠ StatusBadRequest ∧ dec resp.Body = (c, none) ∧ c.Erro = false := by
  unfold parseResponse at h
  split_ifs at h with h1
  · simp at h
  · rcases hd : dec resp.Body with ⟨c', err⟩
    rw [hd] at h
    cases err with
    | some e' => simp at h
    | none =>
      simp only at h
      split_ifs at h with h2
      · simp at h
      · simp at h; subst h; exact ⟨h1, rfl, by simpa using h2⟩

lemma workUnit_cases (dec : Decoder) (d : defaultClient) (cep : String) :
    (∃ err, workUnit dec d cep = .atSendErr err ∧ workOutcome dec d cep = (CEP.zero, some err))
    ∨ (∃ r, workUnit dec d cep = .atSendResult r ∧ workOutcome dec d cep = (r, none)) := by
  unfold workUnit workOutcome
  cases hg : d.httpClient.Get (serviceURL d cep) with
  | error err => exact Or.inl ⟨err, rfl, rfl⟩
  | ok resp =>
    rcases hp : (parseResponse dec resp).1 with ⟨c, err⟩
    cases err with
    | some e =>
      have hz := parseResponse_error_zero dec resp c e hp
      subst hz
      exact Or.inl ⟨e, by simp [hp], by simp [hp]⟩
    | none => exact Or.inr ⟨c, by simp [hp], by simp [hp]⟩

lemma Inv_init (dec : Decoder) (d : defaultClient) (ctx : Context) (cep : String) :
    Inv dec d ctx cep State.init :=
  ⟨rfl, rfl, fun _ => rfl, Or.inl ⟨rfl, rfl, Or.inl rfl, Or.inl rfl⟩⟩

lemma Inv_stepWork (dec : Decoder) (d : defaultClient) (ctx : Context) (cep : String)
    (s s' : State) (hi : Inv dec d ctx cep s) (hs : stepWork dec d cep s = some s') :
    Inv dec d ctx cep s' := by
  obtain ⟨hc1, hc2, hctx, hcase⟩ := hi
  unfold stepWork at hs
  rcases hcase with ⟨h2, h3, h4, h5⟩ | ⟨err, hw, hd, _⟩ | ⟨r, hw, hd, _⟩
  · rcases h5 with h5 | h5
    · rw [h5] at hs
      simp only [Option.some.injEq] at hs
      subst hs
      exact ⟨hc1, hc2, hctx, Or.inl ⟨h2, h3, h4, Or.inr rfl⟩⟩
    · rcases workUnit_cases dec d cep with ⟨err, hw, _⟩ | ⟨r, hw, _⟩
      · rw [h5, hw] at hs
        simp only [Chan.send, h2, hc1, List.length_nil, Nat.lt_one_iff, if_true,
          Option.some.injEq, List.nil_append] at hs
        subst hs
        exact ⟨rfl, hc2, hctx, Or.inr (Or.inl ⟨err, hw, rfl, h3, Or.inl ⟨rfl, h4⟩⟩)⟩
      · rw [h5, hw] at hs
        simp only [Chan.send, h3, hc2, List.length_nil, Nat.lt_one_iff, if_true,
          Option.some.injEq, List.nil_append] at hs
        subst hs
        exact ⟨hc1, rfl, hctx, Or.inr (Or.inr ⟨r, hw, rfl, h2, Or.inl ⟨rfl, h4⟩⟩)⟩
  · rw [hd] at hs
    simp at hs
  · rw [hd] at hs
    simp at hs

lemma Inv_stepSelect (dec : Decoder) (d : defaultClient) (ctx : Context) (cep : String)
    (s s' : State) (c : SelectCase) (hi : Inv dec d ctx cep s)
    (hs : stepSelect s c = some s') : Inv dec d ctx cep s' := by
  obtain ⟨hc1, hc2, hctx, hcase⟩ := hi
  unfold stepSelect at hs
  cases hr : s.ret with
  | some r => rw [hr] at hs; simp at hs
  | none =>
    rw [hr] at hs
    simp only at hs
    cases c with
    | ctxDone =>
      cases he : s.ctxErr with
      | none => rw [he] at hs; simp at hs
      | some e =>
        rw [he] at hs
        simp only [Option.some.injEq] at hs
        subst hs
        have ho : ∀ t : State, t.ctxErr = some e → t.ret = some (CEP.zero, some (GoError.ctx e)) →
            CallerOpen t := fun t h1 h2 => Or.inr ⟨e, h1, h2⟩
        refine ⟨hc1, hc2, fun hn => absurd (hctx hn) (by rw [he]; simp), ?_⟩
        rcases hcase with ⟨h2, h3, _, h5⟩ | ⟨err, hw, hd, h7, h8⟩ | ⟨r, hw, hd, h7, h8⟩
        · exact Or.inl ⟨h2, h3, ho _ rfl rfl, h5⟩
        · rcases h8 with ⟨h8, _⟩ | ⟨_, h8⟩
          · exact Or.inr (Or.inl ⟨err, hw, hd, h7, Or.inl ⟨h8, ho _ rfl rfl⟩⟩)
          · rw [hr] at h8; simp at h8
        · rcases h8 with ⟨h8, _⟩ | ⟨_, h8⟩
          · exact Or.inr (Or.inr ⟨r, hw, hd, h7, Or.inl ⟨h8, ho _ rfl rfl⟩⟩)
          · rw [hr] at h8; simp at h8
    | errChan =>
      rcases hcase with ⟨h2, h3, _, h5⟩ | ⟨err, hw, hd, h7, h8⟩ | ⟨r, hw, hd, h7, h8⟩
      · simp [Chan.recv, h2] at hs
      · rcases h8 with ⟨h8, _⟩ | ⟨_, h8⟩
        · simp only [Chan.recv, h8, Option.some.injEq] at hs
          subst hs
          exact ⟨hc1, hc2, hctx, Or.inr (Or.inl ⟨err, hw, hd, h7, Or.inr ⟨rfl, rfl⟩⟩)⟩
        · rw [hr] at h8; simp at h8
      · simp [Chan.recv, h7] at hs
    | resultChan =>
      rcases hcase with ⟨h2, h3, _, h5⟩ | ⟨err, hw, hd, h7, h8⟩ | ⟨r, hw, hd, h7, h8⟩
      · simp [Chan.recv, h3] at hs
      · simp [Chan.recv, h7] at hs
      · rcases h8 with ⟨h8, _⟩ | ⟨_, h8⟩
        · simp only [Chan.recv, h8, Option.some.injEq] at hs
          subst hs
          exact ⟨hc1, hc2, hctx, Or.inr (Or.inr ⟨r, hw, hd, h7, Or.inr ⟨rfl, rfl⟩⟩)⟩
        · rw [hr] at h8; simp at h8

lemma Inv_step (dec : Decoder) (d : defaultClient) (ctx : Context) (cep : String)
    (s s' : State) (ev : Event) (hi : Inv dec d ctx cep s)
    (hs : step dec d ctx cep s ev = some s') : Inv dec d ctx cep s' := by
  cases ev with
  | work => exact Inv_stepWork dec d ctx cep s s' hi hs
  | select c => exact Inv_stepSelect dec d ctx cep s s' c hi hs
  | cancel e =>
    obtain ⟨hc1, hc2, hctx, hcase⟩ := hi
    simp only [step] at hs
    split_ifs at hs with h
    simp only [Option.some.injEq] at hs
    subst hs
    obtain ⟨hcan, hnone⟩ := h
    have ho : ∀ t : State, t.ret = s.ret → CallerOpen s → t.ret = none := by
      intro t ht hopen
      rcases hopen with h0 | ⟨e0, h0, _⟩
      · rw [ht, h0]
      · rw [hnone] at h0; simp at h0
    refine ⟨hc1, hc2, fun hn => by rw [hcan] at hn; simp at hn, ?_⟩
    rcases hcase with ⟨h2, h3, h4, h5⟩ | ⟨err, hw, hd, h7, h8⟩ | ⟨r, hw, hd, h7, h8⟩
    · exact Or.inl ⟨h2, h3, Or.inl (ho _ rfl h4), h5⟩
    · rcases h8 with ⟨h8, h9⟩ | h8
      · exact Or.inr (Or.inl ⟨err, hw, hd, h7, Or.inl ⟨h8, Or.inl (ho _ rfl h9)⟩⟩)
      · exact Or.inr (Or.inl ⟨err, hw, hd, h7, Or.inr h8⟩)
    · rcases h8 with ⟨h8, h9⟩ | h8
      · exact Or.inr (Or.inr ⟨r, hw, hd, h7, Or.inl ⟨h8, Or.inl (ho _ rfl h9)⟩⟩)
      · exact Or.inr (Or.inr ⟨r, hw, hd, h7, Or.inr h8⟩)

lemma Inv_exec (dec : Decoder) (d : defaultClient) (ctx : Context) (cep : String)
    (evs : List Event) : ∀ s : State, Inv dec d ctx cep s → Inv dec d ctx cep (exec dec d ctx cep s evs) := by
  induction evs with
  | nil => intro s hi; exact hi
  | cons ev evs ih =>
    intro s hi
    unfold exec
    cases hs : step dec d ctx cep s ev with
    | none => exact ih s hi
    | some s' => exact ih s' (Inv_step dec d ctx cep s s' ev hi hs)

lemma Inv_reachable (dec : Decoder) (d : defaultClient) (ctx : Context) (cep : String)
    (sched : List Event) : Inv dec d ctx cep (exec dec d ctx cep State.init sched) :=
  Inv_exec dec d ctx cep sched State.init (Inv_init dec d ctx cep)

lemma exec_append (dec : Decoder) (d : defaultClient) (ctx : Context) (cep : String)
    (xs ys : List Event) : ∀ s : State,
    exec dec d ctx cep s (xs ++ ys) = exec dec d ctx cep (exec dec d ctx cep s xs) ys := by
  induction xs with
  | nil => intro s; rfl
  | cons ev xs ih =>
    intro s
    simp only [List.cons_append, exec]
    cases step dec d ctx cep s ev with
    | none => exact ih s
    | some s' => exact ih s'

lemma ret_step (dec : Decoder) (d : defaultClient) (ctx : Context) (cep : String)
    (s s' : State) (ev : Event) (r : CEP × Option GoError) (hr : s.ret = some r)
    (hs : step dec d ctx cep s ev = some s') : s'.ret = some r := by
  cases ev with
  | work =>
    simp only [step, stepWork] at hs
    split at hs
    · simp only [Option.some.injEq] at hs; subst hs; exact hr
    · split at hs
      · simp only [Option.some.injEq] at hs; subst hs; exact hr
      · simp at hs
    · split at hs
      · simp only [Option.some.injEq] at hs; subst hs; exact hr
      · simp at hs
    · simp at hs
  | cancel e =>
    simp only [step] at hs
    split_ifs at hs
    simp only [Option.some.injEq] at hs; subst hs; exact hr
  | select c =>
    simp [step, stepSelect, hr] at hs

lemma ret_exec (dec : Decoder) (d : defaultClient) (ctx : Context) (cep : String)
    (evs : List Event) (r : CEP × Option GoError) :
    ∀ s : State, s.ret = some r → (exec dec d ctx cep s evs).ret = some r := by
  induction evs with
  | nil => intro s hr; exact hr
  | cons ev evs ih =>
    intro s hr
    unfold exec
    cases hs : step dec d ctx cep s ev with
    | none => exact ih s hr
    | some s' => exact ih s' (ret_step dec d ctx cep s s' ev r hr hs)

lemma workUnit_err (dec : Decoder) (d : defaultClient) (cep : String) (err : GoError)
    (h : workUnit dec d cep = .atSendErr err) : workOutcome dec d cep = (CEP.zero, some err) := by
  rcases workUnit_cases dec d cep with ⟨e, hw, ho⟩ | ⟨r, hw, _⟩
  · rw [hw] at h
    injection h with h
    rw [← h]; exact ho
  · rw [hw] at h; cases h

lemma workUnit_result (dec : Decoder) (d : defaultClient) (cep : String) (r : CEP)
    (h : workUnit dec d cep = .atSendResult r) : workOutcome dec d cep = (r, none) := by
  rcases workUnit_cases dec d cep with ⟨e, hw, _⟩ | ⟨r', hw, ho⟩
  · rw [hw] at h; cases h
  · rw [hw] at h
    injection h with h
    rw [← h]; exact ho

lemma workUnit_ne_done (dec : Decoder) (d : defaultClient) (cep : String) :
    workUnit dec d cep ≠ .done := by
  rcases workUnit_cases dec d cep with ⟨e, hw, _⟩ | ⟨r, hw, _⟩ <;> rw [hw] <;> simp

lemma workOutcome_nil (dec : Decoder) (d : defaultClient) (cep : String) (c : CEP)
    (h : workOutcome dec d cep = (c, none)) :
    ∃ resp, d.httpClient.Get (serviceURL d cep) = .ok resp ∧
      resp.StatusCode ≠ StatusBadRequest ∧ dec resp.Body = (c, none) ∧ c.Erro = false := by
  unfold workOutcome at h
  cases hg : d.httpClient.Get (serviceURL d cep) with
  | error err => rw [hg] at h; simp at h
  | ok resp =>
    rw [hg] at h
    exact ⟨resp, rfl, parseResponse_nil dec resp c h⟩

/-- The caller's result in a reachable state: the context's error with the
zero record, or the outcome of the goroutine's work. -/
lemma Inv_ret (dec : Decoder) (d : defaultClient) (ctx : Context) (cep : String) (s : State)
    (hi : Inv dec d ctx cep s) (r : CEP × Option GoError) (hr : s.ret = some r) :
    (∃ e, s.ctxErr = some e ∧ r = (CEP.zero, some (.ctx e))) ∨ r = workOutcome dec d cep := by
  obtain ⟨_, _, _, hcase⟩ := hi
  have hopen : CallerOpen s → ∃ e, s.ctxErr = some e ∧ r = (CEP.zero, some (.ctx e)) := by
    rintro (h0 | ⟨e, h1, h2⟩)
    · rw [hr] at h0; simp at h0
    · rw [hr] at h2
      exact ⟨e, h1, by simpa using h2⟩
  rcases hcase with ⟨_, _, h4, _⟩ | ⟨err, hw, _, _, h8⟩ | ⟨c, hw, _, _, h8⟩
  · exact Or.inl (hopen h4)
  · rcases h8 with ⟨_, h9⟩ | ⟨_, h9⟩
    · exact Or.inl (hopen h9)
    · rw [hr] at h9
      right
      rw [workUnit_err dec d cep err hw]
      simpa using h9
  · rcases h8 with ⟨_, h9⟩ | ⟨_, h9⟩
    · exact Or.inl (hopen h9)
    · rw [hr] at h9
      right
      rw [workUnit_result dec d cep c hw]
      simpa using h9

/-- From a reachable state, two steps of the goroutine bring it to its end;
the caller and the context are left alone. -/
lemma Inv_finish (dec : Decoder) (d : defaultClient) (ctx : Context) (cep : String) (s : State)
    (hi : Inv dec d ctx cep s) :
    (exec dec d ctx cep s [.work, .work]).worker = .done ∧
    (exec dec d ctx cep s [.work, .work]).ret = s.ret ∧
    (exec dec d ctx cep s [.work, .work]).ctxErr = s.ctxErr := by
  obtain ⟨hc1, hc2, _, hcase⟩ := hi
  rcases hcase with ⟨h2, h3, _, h5⟩ | ⟨err, _, hd, _, _⟩ | ⟨r, _, hd, _, _⟩
  · rcases workUnit_cases dec d cep with ⟨err, hw, _⟩ | ⟨r, hw, _⟩
    · rcases h5 with h5 | h5
      · simp [exec, step, stepWork, h5, hw, Chan.send, h2, hc1]
      · rw [hw] at h5
        simp [exec, step, stepWork, h5, Chan.send, h2, hc1]
    · rcases h5 with h5 | h5
      · simp [exec, step, stepWork, h5, hw, Chan.send, h3, hc2]
      · rw [hw] at h5
        simp [exec, step, stepWork, h5, Chan.send, h3, hc2]
  · simp [exec, step, stepWork, hd]
  · simp [exec, step, stepWork, hd]

/-- Once the goroutine has returned and the caller still waits, polling the
two channel cases of the `select` makes the caller return the outcome of the
goroutine's work. -/
lemma Inv_deliver (dec : Decoder) (d : defaultClient) (ctx : Context) (cep : String) (s : State)
    (hi : Inv dec d ctx cep s) (hd : s.worker = .done) (hr : s.ret = none) :
    (exec dec d ctx cep s [.select .errChan, .select .resultChan]).ret
      = some (workOutcome dec d cep) := by
  obtain ⟨_, _, _, hcase⟩ := hi
  rcases hcase with ⟨_, _, _, h5⟩ | ⟨err, hw, _, h7, h8⟩ | ⟨r, hw, _, h7, h8⟩
  · rcases h5 with h5 | h5
    · rw [hd] at h5; cases h5
    · rw [hd] at h5; exact absurd h5.symm (workUnit_ne_done dec d cep)
  · rcases h8 with ⟨h8, _⟩ | ⟨_, h9⟩
    · simp [exec, step, stepSelect, hr, Chan.recv, h8, workUnit_err dec d cep err hw]
    · rw [hr] at h9; simp at h9
  · rcases h8 with ⟨h8, _⟩ | ⟨_, h9⟩
    · simp [exec, step, stepSelect, hr, Chan.recv, h8, h7, workUnit_result dec d cep r hw]
    · rw [hr] at h9; simp at h9

/-! ## Consultar: results -/

/-- C5: whenever `Consultar` returns a non-nil error, under any client,
context, postal code and schedule (so on each case of the `select`), the
record returned with it is the zero record; and every error result of
`parseResponse` carries the zero record too. -/
theorem Consultar_error_zero (dec : Decoder) (d : defaultClient) (ctx : Context) (cep : String)
    (sched : List Event) (c : CEP) (e : GoError)
    (h : Consultar dec d ctx cep sched = some (c, some e)) :
    c = CEP.zero ∧
    ∀ (resp : Response) (c' : CEP) (e' : GoError),
      (parseResponse dec resp).1 = (c', some e') → c' = CEP.zero := by
  refine ⟨?_, fun resp c' e' hp => parseResponse_error_zero dec resp c' e' hp⟩
  rcases Inv_ret dec d ctx cep _ (Inv_reachable dec d ctx cep sched) (c, some e) h with
    ⟨e0, _, h1⟩ | h1
  · simp only [Prod.mk.injEq] at h1
    exact h1.1
  · rcases workUnit_cases dec d cep with ⟨err, _, ho⟩ | ⟨r, _, ho⟩
    · rw [ho] at h1
      simp only [Prod.mk.injEq] at h1
      exact h1.1
    · rw [ho] at h1
      simp at h1

theorem Consultar_error_zero_witness :
    Consultar jsonDecode (stubClient (.ok (Response.mk 200 halfDecoded))) .never "01001000"
        [.work, .work, .select .errChan]
      = some (CEP.zero, some (.unmarshalType .number)) ∧
    (CEP.zero = CEP.zero ∧
     ∀ (resp : Response) (c' : CEP) (e' : GoError),
       (parseResponse jsonDecode resp).1 = (c', some e') → c' = CEP.zero) :=
  ⟨by decide,
   Consultar_error_zero jsonDecode (stubClient (.ok (Response.mk 200 halfDecoded))) .never
     "01001000" [.work, .work, .select .errChan] CEP.zero (.unmarshalType .number) (by decide)⟩

/-- C6: if, after any schedule `before`, the caller's `select` takes the
`ctx.Done()` case, then the context has an error `e` at that moment and the
call returns the zero record with exactly that error, whatever happens
afterwards (in particular whatever the goroutine produces later). -/
theorem Consultar_ctxDone (dec : Decoder) (d : defaultClient) (ctx : Context) (cep : String)
    (before after : List Event)
    (h : (step dec d ctx cep (exec dec d ctx cep State.init before)
            (.select .ctxDone)).isSome = true) :
    ∃ e, (exec dec d ctx cep State.init before).ctxErr = some e ∧
      Consultar dec d ctx cep (before ++ Event.select .ctxDone :: after)
        = some (CEP.zero, some (.ctx e)) := by
  unfold Consultar
  rw [exec_append]
  generalize exec dec d ctx cep State.init before = s at h ⊢
  simp only [step, stepSelect] at h
  cases hr : s.ret with
  | some r => rw [hr] at h; simp at h
  | none =>
    cases he : s.ctxErr with
    | none => rw [hr, he] at h; simp at h
    | some e =>
      refine ⟨e, rfl, ?_⟩
      have hs : step dec d ctx cep s (.select .ctxDone)
          = some { s with ret := some (CEP.zero, some (.ctx e)) } := by
        simp [step, stepSelect, hr, he]
      rw [exec, hs]
      exact ret_exec dec d ctx cep after _ _ rfl

theorem Consultar_ctxDone_witness :
    ∃ e, (exec jsonDecode (stubClient (.ok (Response.mk 200 validResult))) .cancelable "01001000"
            State.init [.cancel .DeadlineExceeded, .work]).ctxErr = some e ∧
      Consultar jsonDecode (stubClient (.ok (Response.mk 200 validResult))) .cancelable "01001000"
          ([.cancel .DeadlineExceeded, .work] ++
            Event.select .ctxDone :: [.work, .select .resultChan, .select .errChan])
        = some (CEP.zero, some (.ctx e)) :=
  Consultar_ctxDone jsonDecode (stubClient (.ok (Response.mk 200 validResult))) .cancelable
    "01001000" [.cancel .DeadlineExceeded, .work] [.work, .select .resultChan, .select .errChan]
    (by decide)

/-- C7: when the context is never done (it is a context such as
`context.TODO()`, or it has no error when the schedule ends), a call can only
return the outcome of the goroutine's work, which is the error of `Get` with
the zero record or exactly what `parseResponse` returns; and it does return
it: once the goroutine has taken its two steps and the `select` has polled
its channel cases, the caller has returned that outcome. -/
theorem Consultar_neverDone (dec : Decoder) (d : defaultClient) (ctx : Context) (cep : String)
    (sched : List Event)
    (hctx : ctx = .never ∨ (exec dec d ctx cep State.init sched).ctxErr = none) :
    (∀ r, Consultar dec d ctx cep sched = some r → r = workOutcome dec d cep) ∧
    Consultar dec d ctx cep (sched ++ [.work, .work, .select .errChan, .select .resultChan])
      = some (workOutcome dec d cep) ∧
    (∀ e, d.httpClient.Get (serviceURL d cep) = .error e →
      workOutcome dec d cep = (CEP.zero, some e)) ∧
    (∀ resp, d.httpClient.Get (serviceURL d cep) = .ok resp →
      workOutcome dec d cep = (parseResponse dec resp).1) := by
  have hnone : (exec dec d ctx cep State.init sched).ctxErr = none := by
    rcases hctx with h | h
    · exact (Inv_reachable dec d ctx cep sched).2.2.1 h
    · exact h
  have safe : ∀ (t : State), Inv dec d ctx cep t → t.ctxErr = none →
      ∀ r, t.ret = some r → r = workOutcome dec d cep := by
    intro t hi hn r hr
    rcases Inv_ret dec d ctx cep t hi r hr with ⟨e, he, _⟩ | h1
    · rw [hn] at he; simp at he
    · exact h1
  refine ⟨fun r hr => safe _ (Inv_reachable dec d ctx cep sched) hnone r hr, ?_, ?_, ?_⟩
  · unfold Consultar
    have hsplit : sched ++ [Event.work, .work, .select .errChan, .select .resultChan]
        = (sched ++ [Event.work, .work]) ++ [.select .errChan, .select .resultChan] := by simp
    rw [hsplit, exec_append]
    have hi := Inv_reachable dec d ctx cep (sched ++ [Event.work, .work])
    have hf := Inv_finish dec d ctx cep _ (Inv_reachable dec d ctx cep sched)
    rw [← exec_append] at hf
    cases hr : (exec dec d ctx cep State.init (sched ++ [Event.work, .work])).ret with
    | none => exact Inv_deliver dec d ctx cep _ hi hf.1 hr
    | some r =>
      rw [ret_exec dec d ctx cep _ r _ hr, safe _ hi (hf.2.2.trans hnone) r hr]
  · intro e he
    simp [workOutcome, he]
  · intro resp he
    simp [workOutcome, he]

theorem Consultar_neverDone_witness :
    Consultar jsonDecode (stubClient (.error (.transport "Client.Timeout exceeded"))) .never
        "01001000" ([.select .resultChan, .work] ++
          [.work, .work, .select .errChan, .select .resultChan])
      = some (CEP.zero, some (.transport "Client.Timeout exceeded")) :=
  (Consultar_neverDone jsonDecode (stubClient (.error (.transport "Client.Timeout exceeded")))
    .never "01001000" [.select .resultChan, .work] (Or.inl rfl)).2.1

/-- C9: `Consultar` returns a nil error only if the transport's `Get`
succeeded, the response status was not 400, the body decoded without error
into the returned record, and that record's `Erro` is false. -/
theorem Consultar_nil_error (dec : Decoder) (d : defaultClient) (ctx : Context) (cep : String)
    (sched : List Event) (c : CEP) (h : Consultar dec d ctx cep sched = some (c, none)) :
    ∃ resp, d.httpClient.Get (serviceURL d cep) = .ok resp ∧
      resp.StatusCode ≠ StatusBadRequest ∧ dec resp.Body = (c, none) ∧ c.Erro = false := by
  rcases Inv_ret dec d ctx cep _ (Inv_reachable dec d ctx cep sched) (c, none) h with
    ⟨e0, _, h1⟩ | h1
  · simp at h1
  · exact workOutcome_nil dec d cep c h1.symm

theorem Consultar_nil_error_witness :
    Consultar jsonDecode (stubClient (.ok (Response.mk 200 validResult))) .cancelable "01001000"
        [.work, .work, .cancel .Canceled, .select .resultChan] = some (validCEP, none) ∧
    ∃ resp, (stubClient (.ok (Response.mk 200 validResult))).httpClient.Get
        (serviceURL (stubClient (.ok (Response.mk 200 validResult))) "01001000") = .ok resp ∧
      resp.StatusCode ≠ StatusBadRequest ∧ jsonDecode resp.Body = (validCEP, none) ∧
      validCEP.Erro = false :=
  ⟨by decide,
   Consultar_nil_error jsonDecode (stubClient (.ok (Response.mk 200 validResult))) .cancelable
     "01001000" [.work, .work, .cancel .Canceled, .select .resultChan] validCEP (by decide)⟩

lemma stepSelect_sent (s t : State) (c : SelectCase) (hs : stepSelect s c = some t) :
    t.worker = s.worker ∧ sentOn s t = [] := by
  unfold stepSelect at hs
  cases hr : s.ret with
  | some r => rw [hr] at hs; simp at hs
  | none =>
    rw [hr] at hs
    simp only at hs
    cases c with
    | ctxDone =>
      cases he : s.ctxErr with
      | none => rw [he] at hs; simp at hs
      | some e =>
        rw [he] at hs
        simp only [Option.some.injEq] at hs
        subst hs
        simp [sentOn]
    | errChan =>
      cases hb : s.errChan.buf with
      | nil => simp [Chan.recv, hb] at hs
      | cons x rest =>
        simp only [Chan.recv, hb, Option.some.injEq] at hs
        subst hs
        simp [sentOn, hb]
    | resultChan =>
      cases hb : s.resultChan.buf with
      | nil => simp [Chan.recv, hb] at hs
      | cons x rest =>
        simp only [Chan.recv, hb, Option.some.injEq] at hs
        subst hs
        simp [sentOn, hb]

lemma SentSoFar_step (dec : Decoder) (d : defaultClient) (ctx : Context) (cep : String)
    (s t : State) (ev : Event) (tr : List ChanId) (hi : Inv dec d ctx cep s)
    (ht : SentSoFar dec d cep s tr) (hs : step dec d ctx cep s ev = some t) :
    SentSoFar dec d cep t (tr ++ sentOn s t) := by
  have same : t.worker = s.worker → sentOn s t = [] → SentSoFar dec d cep t (tr ++ sentOn s t) := by
    intro hw h0
    rw [h0, List.append_nil]
    unfold SentSoFar
    rw [hw]
    exact ht
  cases ev with
  | select c =>
    obtain ⟨hw, h0⟩ := stepSelect_sent s t c hs
    exact same hw h0
  | cancel e =>
    simp only [step] at hs
    split_ifs at hs with h
    simp only [Option.some.injEq] at hs
    subst hs
    exact same rfl (by simp [sentOn])
  | work =>
    obtain ⟨hc1, hc2, _, hcase⟩ := hi
    simp only [step, stepWork] at hs
    rcases hcase with ⟨h2, h3, _, h5⟩ | ⟨err, _, hd, _⟩ | ⟨r, _, hd, _⟩
    · have hnd : s.worker ≠ .done := by
        rcases h5 with h5 | h5
        · rw [h5]; simp
        · rw [h5]; exact workUnit_ne_done dec d cep
      have htr : tr = [] := ht.1 hnd
      rcases h5 with h5 | h5
      · rw [h5] at hs
        simp only [Option.some.injEq] at hs
        subst hs
        refine ⟨fun _ => by simp [htr, sentOn], fun hdone => ?_⟩
        exact absurd hdone (workUnit_ne_done dec d cep)
      · rcases workUnit_cases dec d cep with ⟨err, hw, _⟩ | ⟨r, hw, _⟩
        · rw [h5, hw] at hs
          simp only [Chan.send, h2, hc1, List.length_nil, Nat.lt_one_iff, if_true,
            Option.some.injEq, List.nil_append] at hs
          subst hs
          refine ⟨fun hnd' => absurd rfl hnd', fun _ => Or.inl ⟨err, hw, ?_⟩⟩
          simp [htr, sentOn, h2]
        · rw [h5, hw] at hs
          simp only [Chan.send, h3, hc2, List.length_nil, Nat.lt_one_iff, if_true,
            Option.some.injEq, List.nil_append] at hs
          subst hs
          refine ⟨fun hnd' => absurd rfl hnd', fun _ => Or.inr ⟨r, hw, ?_⟩⟩
          simp [htr, sentOn, h3]
    · rw [hd] at hs; simp at hs
    · rw [hd] at hs; simp at hs

lemma SentSoFar_exec (dec : Decoder) (d : defaultClient) (ctx : Context) (cep : String)
    (evs : List Event) : ∀ (s : State) (tr : List ChanId), Inv dec d ctx cep s →
    SentSoFar dec d cep s tr →
    SentSoFar dec d cep (exec dec d ctx cep s evs) (tr ++ sendTrace dec d ctx cep s evs) := by
  induction evs with
  | nil => intro s tr _ ht; simpa [exec, sendTrace] using ht
  | cons ev evs ih =>
    intro s tr hi ht
    unfold exec sendTrace
    cases hs : step dec d ctx cep s ev with
    | none => exact ih s tr hi ht
    | some t =>
      simp only
      rw [← List.append_assoc]
      exact ih t _ (Inv_step dec d ctx cep s t ev hi hs)
        (SentSoFar_step dec d ctx cep s t ev tr hi ht hs)

lemma SentSoFar_reachable (dec : Decoder) (d : defaultClient) (ctx : Context) (cep : String)
    (sched : List Event) :
    SentSoFar dec d cep (exec dec d ctx cep State.init sched)
      (sendTrace dec d ctx cep State.init sched) := by
  have h := SentSoFar_exec dec d ctx cep sched State.init [] (Inv_init dec d ctx cep)
    ⟨fun _ => rfl, fun h => by simp [State.init] at h⟩
  simpa using h

/-- C10: in every state `s` a call can reach, both channels have capacity 1
and at most one send has been performed on them (sends are read off the
channels' buffers). While the goroutine has not returned, no send has been
performed, both buffers are empty and its next step is enabled, whether or
not the caller has returned: at `errChan <- err` the step puts `err` into
`errChan` and nothing into `resultChan`, at `resultChan <- result` it puts the
record into `resultChan` and nothing into `errChan`, and in both cases the
goroutine returns without blocking and the caller's result is untouched. Once
the goroutine has returned it takes no further step and exactly one send has
been performed: on `errChan` when its work failed, on `resultChan` when it
succeeded; the value sent is in that channel, or the caller has received and
returned it. And from `s`, two steps of the goroutine bring it to its end
with exactly one send performed in the whole run. -/
theorem worker_single_send (dec : Decoder) (d : defaultClient) (ctx : Context) (cep : String)
    (sched : List Event) (s : State) (hs : s = exec dec d ctx cep State.init sched) :
    s.errChan.cap = 1 ∧ s.resultChan.cap = 1 ∧
    (sendTrace dec d ctx cep State.init sched).length ≤ 1 ∧
    (s.worker ≠ .done →
      sendTrace dec d ctx cep State.init sched = [] ∧
      s.errChan.buf = [] ∧ s.resultChan.buf = [] ∧
      (step dec d ctx cep s .work).isSome = true) ∧
    (∀ err, s.worker = .atSendErr err →
      ∃ t, step dec d ctx cep s .work = some t ∧
        t.errChan.buf = [err] ∧ t.resultChan.buf = [] ∧ sentOn s t = [.errChan] ∧
        t.worker = .done ∧ t.ret = s.ret ∧
        workOutcome dec d cep = (CEP.zero, some err)) ∧
    (∀ r, s.worker = .atSendResult r →
      ∃ t, step dec d ctx cep s .work = some t ∧
        t.resultChan.buf = [r] ∧ t.errChan.buf = [] ∧ sentOn s t = [.resultChan] ∧
        t.worker = .done ∧ t.ret = s.ret ∧
        workOutcome dec d cep = (r, none)) ∧
    (s.worker = .done →
      step dec d ctx cep s .work = none ∧
      ((sendTrace dec d ctx cep State.init sched = [.errChan] ∧
          ∃ err, workOutcome dec d cep = (CEP.zero, some err) ∧ s.resultChan.buf = [] ∧
            (s.errChan.buf = [err]
              ∨ (s.errChan.buf = [] ∧ s.ret = some (CEP.zero, some err))))
       ∨ (sendTrace dec d ctx cep State.init sched = [.resultChan] ∧
          ∃ r, workOutcome dec d cep = (r, none) ∧ s.errChan.buf = [] ∧
            (s.resultChan.buf = [r]
              ∨ (s.resultChan.buf = [] ∧ s.ret = some (r, none)))))) ∧
    (exec dec d ctx cep s [.work, .work]).worker = .done ∧
    (sendTrace dec d ctx cep State.init (sched ++ [.work, .work])).length = 1 := by
  have hi : Inv dec d ctx cep s := by rw [hs]; exact Inv_reachable dec d ctx cep sched
  have ht : SentSoFar dec d cep s (sendTrace dec d ctx cep State.init sched) := by
    rw [hs]; exact SentSoFar_reachable dec d ctx cep sched
  have hf := Inv_finish dec d ctx cep s hi
  have hlen : ∀ (t : State) (tr : List ChanId), SentSoFar dec d cep t tr → t.worker = .done →
      tr.length = 1 := by
    intro t tr h hd
    rcases h.2 hd with ⟨_, _, h1⟩ | ⟨_, _, h1⟩ <;> simp [h1]
  obtain ⟨hc1, hc2, _, hcase⟩ := hi
  refine ⟨hc1, hc2, ?_, ?_, ?_, ?_, ?_, hf.1, ?_⟩
  · by_cases hd : s.worker = .done
    · exact le_of_eq (hlen s _ ht hd)
    · simp [ht.1 hd]
  · intro hnd
    rcases hcase with ⟨h2, h3, _, h5⟩ | ⟨_, _, hd, _⟩ | ⟨_, _, hd, _⟩
    · refine ⟨ht.1 hnd, h2, h3, ?_⟩
      rcases h5 with h5 | h5
      · simp [step, stepWork, h5]
      · rcases workUnit_cases dec d cep with ⟨err, hw, _⟩ | ⟨r, hw, _⟩
        · rw [hw] at h5
          simp [step, stepWork, h5, Chan.send, h2, hc1]
        · rw [hw] at h5
          simp [step, stepWork, h5, Chan.send, h3, hc2]
    · exact absurd hd hnd
    · exact absurd hd hnd
  · intro err hw
    rcases hcase with ⟨h2, h3, _, h5⟩ | ⟨_, _, hd, _⟩ | ⟨_, _, hd, _⟩
    · have hu : workUnit dec d cep = .atSendErr err := by
        rcases h5 with h5 | h5
        · rw [hw] at h5; cases h5
        · rw [← h5]; exact hw
      refine ⟨{ s with errChan := { s.errChan with buf := [err] }, worker := .done },
        ?_, rfl, h3, ?_, rfl, rfl, workUnit_err dec d cep err hu⟩
      · simp [step, stepWork, hw, Chan.send, h2, hc1]
      · simp [sentOn, h2]
    · rw [hw] at hd; cases hd
    · rw [hw] at hd; cases hd
  · intro r hw
    rcases hcase with ⟨h2, h3, _, h5⟩ | ⟨_, _, hd, _⟩ | ⟨_, _, hd, _⟩
    · have hu : workUnit dec d cep = .atSendResult r := by
        rcases h5 with h5 | h5
        · rw [hw] at h5; cases h5
        · rw [← h5]; exact hw
      refine ⟨{ s with resultChan := { s.resultChan with buf := [r] }, worker := .done },
        ?_, rfl, h2, ?_, rfl, rfl, workUnit_result dec d cep r hu⟩
      · simp [step, stepWork, hw, Chan.send, h3, hc2]
      · simp [sentOn, h3]
    · rw [hw] at hd; cases hd
    · rw [hw] at hd; cases hd
  · intro hd
    refine ⟨by simp [step, stepWork, hd], ?_⟩
    rcases hcase with ⟨_, _, _, h5⟩ | ⟨err, hw, _, h7, h8⟩ | ⟨r, hw, _, h7, h8⟩
    · rcases h5 with h5 | h5
      · rw [hd] at h5; cases h5
      · rw [hd] at h5; exact absurd h5.symm (workUnit_ne_done dec d cep)
    · left
      refine ⟨?_, err, workUnit_err dec d cep err hw, h7, ?_⟩
      · rcases ht.2 hd with ⟨_, _, h1⟩ | ⟨r, hr, _⟩
        · exact h1
        · rw [hw] at hr; cases hr
      · rcases h8 with ⟨h8, _⟩ | h8
        · exact Or.inl h8
        · exact Or.inr h8
    · right
      refine ⟨?_, r, workUnit_result dec d cep r hw, h7, ?_⟩
      · rcases ht.2 hd with ⟨e, he, _⟩ | ⟨_, _, h1⟩
        · rw [hw] at he; cases he
        · exact h1
      · rcases h8 with ⟨h8, _⟩ | h8
        · exact Or.inl h8
        · exact Or.inr h8
  · have hd : (exec dec d ctx cep State.init (sched ++ [Event.work, .work])).worker = .done := by
      rw [exec_append, ← hs]; exact hf.1
    exact hlen _ _ (SentSoFar_reachable dec d ctx cep (sched ++ [Event.work, .work])) hd

theorem worker_single_send_witness :
    (exec jsonDecode (stubClient (.ok (Response.mk 200 validResult))) .cancelable "01001000"
        State.init [.work, .cancel .DeadlineExceeded, .select .ctxDone]).ret
      = some (CEP.zero, some (.ctx .DeadlineExceeded)) ∧
    ∃ t, step jsonDecode (stubClient (.ok (Response.mk 200 validResult))) .cancelable "01001000"
        (exec jsonDecode (stubClient (.ok (Response.mk 200 validResult))) .cancelable "01001000"
          State.init [.work, .cancel .DeadlineExceeded, .select .ctxDone]) .work = some t ∧
      t.resultChan.buf = [validCEP] ∧ t.errChan.buf = [] ∧
      sentOn (exec jsonDecode (stubClient (.ok (Response.mk 200 validResult))) .cancelable
        "01001000" State.init [.work, .cancel .DeadlineExceeded, .select .ctxDone]) t
          = [.resultChan] ∧
      t.worker = .done ∧
      t.ret = (exec jsonDecode (stubClient (.ok (Response.mk 200 validResult))) .cancelable
        "01001000" State.init [.work, .cancel .DeadlineExceeded, .select .ctxDone]).ret ∧
      workOutcome jsonDecode (stubClient (.ok (Response.mk 200 validResult))) "01001000"
        = (validCEP, none) :=
  ⟨by decide,
   (worker_single_send jsonDecode (stubClient (.ok (Response.mk 200 validResult))) .cancelable
      "01001000" [.work, .cancel .DeadlineExceeded, .select .ctxDone] _ rfl).2.2.2.2.2.1
        validCEP (by decide)⟩

end Viacep
